import Mathlib

/-!
# 3D Slicer module framework: `qSlicerAbstractCoreModule`

A shallow embedding of `Base/QTCore/qSlicerAbstractCoreModule.cxx`: the private
data of a module, the lazy accessors `logic()` and `widgetRepresentation()`,
scene and application-logic propagation, and the teardown loop of the private
destructor.

Pointers are natural numbers and `0` is the null pointer.  The objects a module
points to (its logic, its widget representations) live in a `Memory` that maps a
pointer to the fields of the object stored there.  The virtual member functions
`createLogic()` and `createWidgetRepresentation()` have no body in the file; they
are parameters (`Subclass`), given as the value returned by their n-th call.
-/

namespace Slicer

/-- A pointer value; `0` is the null pointer. -/
abbrev Ptr := Nat

/-- Writes `v` at address `p` of a field map. -/
def store {α : Type} (f : Ptr → α) (p : Ptr) (v : α) : Ptr → α :=
  fun q => if q = p then v else f q

/-- The class `qSlicerAbstractCoreModulePrivate` (lines 38-53). -/
structure qSlicerAbstractCoreModulePrivate where
  Hidden : Bool
  Name : String
  Path : String
  Installed : Bool
  WidgetRepresentation : Ptr
  WidgetRepresentations : List Ptr
  MRMLScene : Ptr
  AppLogic : Ptr
  Logic : Ptr

/-- The fields of the objects a module points to, by address: the scene, the
application logic and the share directory of a logic object, and the scene, the
module flag, the logic and the number of `setup()` calls of a widget
representation.  The setters of these collaborator classes (`SetMRMLScene`,
`SetMRMLApplicationLogic`, `SetModuleShareDirectory`, `setMRMLScene`) are not
in the file; each is taken to store its argument in the object. -/
structure Memory where
  logicScene : Ptr → Ptr
  logicAppLogic : Ptr → Ptr
  logicShareDirectory : Ptr → String
  widgetScene : Ptr → Ptr
  widgetModuleSet : Ptr → Bool
  widgetLogic : Ptr → Ptr
  widgetSetupCalls : Ptr → Nat

/-- The members of a concrete module class that the file calls and does not
define: the n-th call of `createLogic()` returns `createLogic n`, the n-th call
of `createWidgetRepresentation()` returns `createWidgetRepresentation n`,
`isModuleLogic p` says whether `vtkSlicerModuleLogic::SafeDownCast` succeeds on
the object at `p`, and `GetModuleShareDirectory` is the static function of
`vtkSlicerApplicationLogic`. -/
structure Subclass where
  createLogic : Nat → Ptr
  createWidgetRepresentation : Nat → Ptr
  isModuleLogic : Ptr → Bool
  GetModuleShareDirectory : String → String → String

/-- A module together with everything its member functions read or write: its
private data, the memory of the objects it points to, the number of calls made
so far to `createLogic()`, `createWidgetRepresentation()` and `setup()`, and the
messages written to `qDebug()` (each message is the list of streamed items). -/
structure World where
  d : qSlicerAbstractCoreModulePrivate
  mem : Memory
  createLogicCalls : Nat
  createWidgetRepresentationCalls : Nat
  setupCalls : Nat
  debugOutput : List (List String)

/-- The constructor `qSlicerAbstractCoreModulePrivate()` (lines 57-63); the
strings, the list and the smart pointers are default-constructed. -/
def qSlicerAbstractCoreModulePrivate.new : qSlicerAbstractCoreModulePrivate :=
  { Hidden := false
    Name := "NA"
    Path := ""
    Installed := false
    WidgetRepresentation := 0
    WidgetRepresentations := []
    MRMLScene := 0
    AppLogic := 0
    Logic := 0 }

/-- A newly constructed module (lines 79-83) in a given memory. -/
def newModule (mem : Memory) : World :=
  { d := qSlicerAbstractCoreModulePrivate.new
    mem := mem
    createLogicCalls := 0
    createWidgetRepresentationCalls := 0
    setupCalls := 0
    debugOutput := [] }

/-- The accessor `name()` (lines 104-108). -/
def name (w : World) : String := w.d.Name

/-- The accessor `path()` (line 202). -/
def path (w : World) : String := w.d.Path

/-- The accessor `mrmlScene()` (line 148). -/
def mrmlScene (w : World) : Ptr := w.d.MRMLScene

/-- The accessor `appLogic()` (line 187). -/
def appLogic (w : World) : Ptr := w.d.AppLogic

/-- The function `setMRMLScene` (lines 151-169). -/
def setMRMLScene (_mrmlScene : Ptr) (w : World) : World :=
  if w.d.MRMLScene = _mrmlScene then w
  else
    let w1 : World := { w with d := { w.d with MRMLScene := _mrmlScene } }
    let w2 : World :=
      if w1.d.Logic ≠ 0 then
        { w1 with mem := { w1.mem with
            logicScene := store w1.mem.logicScene w1.d.Logic _mrmlScene } }
      else w1
    if w2.d.WidgetRepresentation ≠ 0 then
      { w2 with mem := { w2.mem with
          widgetScene := store w2.mem.widgetScene w2.d.WidgetRepresentation _mrmlScene } }
    else w2

/-- The function `setAppLogic` (lines 172-184); the down-cast of a null pointer
is null. -/
def setAppLogic (h : Subclass) (newAppLogic : Ptr) (w : World) : World :=
  let w1 : World := { w with d := { w.d with AppLogic := newAppLogic } }
  let moduleLogic : Ptr :=
    if w1.d.Logic ≠ 0 ∧ h.isModuleLogic w1.d.Logic = true then w1.d.Logic else 0
  if moduleLogic ≠ 0 then
    { w1 with mem := { w1.mem with
        logicAppLogic := store w1.mem.logicAppLogic moduleLogic newAppLogic } }
  else w1

/-- The function `logic()` (lines 256-283): the new world and the returned
pointer. -/
def logic (h : Subclass) (w : World) : World × Ptr :=
  if w.d.Logic ≠ 0 then (w, w.d.Logic)
  else
    let p : Ptr := h.createLogic w.createLogicCalls
    let w1 : World :=
      { w with createLogicCalls := w.createLogicCalls + 1, d := { w.d with Logic := p } }
    if w1.d.Logic ≠ 0 then
      let moduleLogic : Ptr := if h.isModuleLogic w1.d.Logic = true then w1.d.Logic else 0
      let w2 : World :=
        if moduleLogic ≠ 0 then
          { w1 with mem := { w1.mem with
              logicAppLogic := store w1.mem.logicAppLogic moduleLogic w1.d.AppLogic
              logicShareDirectory := store w1.mem.logicShareDirectory moduleLogic
                (h.GetModuleShareDirectory (name w1) (path w1)) } }
        else w1
      let w3 : World :=
        { w2 with mem := { w2.mem with
            logicScene := store w2.mem.logicScene w2.d.Logic (mrmlScene w2) } }
      (w3, w3.d.Logic)
    else (w1, w1.d.Logic)

/-- The function `initialize` (lines 91-96); `setup()` is pure virtual and is
recorded as a call. -/
def initializeModule (h : Subclass) (_appLogic : Ptr) (w : World) : World :=
  let w1 := setAppLogic h _appLogic w
  let w2 := (logic h w1).1
  { w2 with setupCalls := w2.setupCalls + 1 }

/-- The block of `createNewWidgetRepresentation()` that a debug build compiles
(lines 230-233): `Q_ASSERT(currentLogic == this->logic())`.  A failed assertion
aborts the program (`none`); a build with `QT_NO_DEBUG` skips the block. -/
def consistencyCheck (debug : Bool) (h : Subclass) (w : World) : Option World :=
  if debug = true then
    let currentLogic : Ptr := w.d.Logic
    let r := logic h w
    if currentLogic = r.2 then some r.1 else none
  else some w

/-- The call `newWidgetRepresentation->setModule(this)` (line 244).  The member
function is not in the file; by the comment at line 243 it sets the logic of
the representation and calls its `setup()`.  The logic is the one the module's
`logic()` returns, so the call creates the module's logic when the module holds
none yet. -/
def setModule (h : Subclass) (representation : Ptr) (w : World) : World :=
  let r := logic h w
  { r.1 with mem := { r.1.mem with
      widgetModuleSet := store r.1.mem.widgetModuleSet representation true
      widgetLogic := store r.1.mem.widgetLogic representation r.2
      widgetSetupCalls := store r.1.mem.widgetSetupCalls representation
        (r.1.mem.widgetSetupCalls representation + 1) } }

/-- The function `createNewWidgetRepresentation()` (lines 223-253): `none` when
the assertion of a debug build fails, else the new world and the returned
pointer. -/
def createNewWidgetRepresentation (debug : Bool) (h : Subclass) (w : World) :
    Option (World × Ptr) :=
  match consistencyCheck debug h w with
  | none => none
  | some w1 =>
    let newWidgetRepresentation : Ptr :=
      h.createWidgetRepresentation w1.createWidgetRepresentationCalls
    let w2 : World :=
      { w1 with createWidgetRepresentationCalls := w1.createWidgetRepresentationCalls + 1 }
    if newWidgetRepresentation = 0 then
      some ({ w2 with debugOutput := w2.debugOutput ++
                [["Warning, the module ", name w2, "has no widget representation"]] }, 0)
    else
      let w3 : World := setModule h newWidgetRepresentation w2
      let w4 : World :=
        { w3 with mem := { w3.mem with
            widgetScene := store w3.mem.widgetScene newWidgetRepresentation (mrmlScene w3) } }
      let w5 : World :=
        { w4 with d := { w4.d with
            WidgetRepresentations := w4.d.WidgetRepresentations ++ [newWidgetRepresentation] } }
      some (w5, newWidgetRepresentation)

/-- The function `widgetRepresentation()` (lines 210-220). -/
def widgetRepresentation (debug : Bool) (h : Subclass) (w : World) : Option (World × Ptr) :=
  if w.d.WidgetRepresentation = 0 then
    match createNewWidgetRepresentation debug h w with
    | none => none
    | some (w1, r) =>
      let w2 : World := { w1 with d := { w1.d with WidgetRepresentation := r } }
      some (w2, w2.d.WidgetRepresentation)
  else some (w, w.d.WidgetRepresentation)

/-- The member `QList::removeAll`: every occurrence of `r` is removed and the
order of the other elements is kept. -/
def removeAll (r : Ptr) (l : List Ptr) : List Ptr :=
  l.filter (fun x => decide (x ≠ r))

/-- The function `representationDeleted` (lines 286-295). -/
def representationDeleted (representation : Ptr) (w : World) : World :=
  let w1 : World :=
    if w.d.WidgetRepresentation = representation then
      { w with d := { w.d with WidgetRepresentation := 0 } }
    else w
  { w1 with d := { w1.d with
      WidgetRepresentations := removeAll representation w1.d.WidgetRepresentations } }

/-- Modelled from the spec: the destructor of `qSlicerAbstractModuleRepresentation`
is not in the file; deleting the representation at `r` is taken to notify the
module through `representationDeleted(r)`, and does nothing else to the module. -/
def deleteRepresentation (r : Ptr) (w : World) : World :=
  representationDeleted r w

/-- The loop of `~qSlicerAbstractCoreModulePrivate()` (lines 66-73), run for at
most `fuel` iterations: while the tracking list is not empty, delete its first
element.  The result is the final world and the pointers deleted, in order;
`none` when the iterations are used up before the list is empty. -/
def destructorLoop : Nat → World → List Ptr → Option (World × List Ptr)
  | fuel, w, deleted =>
    match w.d.WidgetRepresentations, fuel with
    | [], _ => some (w, deleted)
    | _ :: _, 0 => none
    | r :: _, fuel + 1 => destructorLoop fuel (deleteRepresentation r w) (deleted ++ [r])

/-- A call of one of the member functions of a module. -/
inductive Op where
  | init (_appLogic : Ptr)
  | logic
  | setMRMLScene (_mrmlScene : Ptr)
  | setAppLogic (newAppLogic : Ptr)
  | widgetRepresentation
  | createNewWidgetRepresentation
  | representationDeleted (representation : Ptr)
  deriving DecidableEq

/-- The world after one call; `none` when the call aborts the program. -/
def step (debug : Bool) (h : Subclass) : Op → World → Option World
  | .init a, w => some (initializeModule h a w)
  | .logic, w => some (logic h w).1
  | .setMRMLScene s, w => some (setMRMLScene s w)
  | .setAppLogic a, w => some (setAppLogic h a w)
  | .widgetRepresentation, w => (widgetRepresentation debug h w).map Prod.fst
  | .createNewWidgetRepresentation, w => (createNewWidgetRepresentation debug h w).map Prod.fst
  | .representationDeleted r, w => some (representationDeleted r w)

/-- The world after a sequence of calls. -/
def run (debug : Bool) (h : Subclass) : List Op → World → Option World
  | [], w => some w
  | op :: ops, w =>
    match step debug h op w with
    | none => none
    | some w1 => run debug h ops w1

/-- A memory in which every field is null, empty or false. -/
def Memory.zero : Memory :=
  { logicScene := fun _ => 0
    logicAppLogic := fun _ => 0
    logicShareDirectory := fun _ => ""
    widgetScene := fun _ => 0
    widgetModuleSet := fun _ => false
    widgetLogic := fun _ => 0
    widgetSetupCalls := fun _ => 0 }

/-- The logic held by the module, when there is one, has the module's scene
and, when it is a `vtkSlicerModuleLogic`, the module's application logic. -/
def LogicInSync (h : Subclass) (w : World) : Prop :=
  w.d.Logic ≠ 0 →
    w.mem.logicScene w.d.Logic = w.d.MRMLScene ∧
    (h.isModuleLogic w.d.Logic = true → w.mem.logicAppLogic w.d.Logic = w.d.AppLogic)

instance (h : Subclass) (w : World) : Decidable (LogicInSync h w) := by
  unfold LogicInSync
  infer_instance

/-- The primary widget representation, when there is one, has the module's
scene. -/
def PrimaryInSync (w : World) : Prop :=
  w.d.WidgetRepresentation ≠ 0 →
    w.mem.widgetScene w.d.WidgetRepresentation = w.d.MRMLScene

instance (w : World) : Decidable (PrimaryInSync w) := by
  unfold PrimaryInSync
  infer_instance

/-- The calls made so far to `createLogic()` agree with the logic the module
holds: while it holds none every call returned null, and once it holds one
that logic is what the last call returned and every earlier call returned
null. -/
def CreationLog (h : Subclass) (w : World) : Prop :=
  (w.d.Logic = 0 → ∀ k, k < w.createLogicCalls → h.createLogic k = 0) ∧
  (w.d.Logic ≠ 0 → ∃ n, w.createLogicCalls = n + 1 ∧ h.createLogic n = w.d.Logic ∧
    ∀ k, k < n → h.createLogic k = 0)

/-- The invariant of the states a module can reach. -/
def Inv (h : Subclass) (w : World) : Prop :=
  LogicInSync h w ∧ PrimaryInSync w ∧ CreationLog h w

/-- A module class with a module logic (at address 5) whose n-th widget
representation is at address `n + 1`. -/
def exampleModule : Subclass :=
  { createLogic := fun _ => 5
    createWidgetRepresentation := fun n => n + 1
    isModuleLogic := fun _ => true
    GetModuleShareDirectory := fun n p => p ++ n }

/-- A module class with a logic and no widget representation. -/
def noWidgetModule : Subclass :=
  { createLogic := fun _ => 5
    createWidgetRepresentation := fun _ => 0
    isModuleLogic := fun _ => true
    GetModuleShareDirectory := fun n p => p ++ n }

/-- A module class whose `createLogic()` returns null at its first call and a
logic (at address 5) at every later call. -/
def lateLogicModule : Subclass :=
  { createLogic := fun n => if n = 0 then 0 else 5
    createWidgetRepresentation := fun n => n + 1
    isModuleLogic := fun _ => true
    GetModuleShareDirectory := fun n p => p ++ n }

/-- A module class without logic whose `createWidgetRepresentation()` returns
the addresses 3, 5, 3 and then null. -/
def repeatingModule : Subclass :=
  { createLogic := fun _ => 0
    createWidgetRepresentation := fun n => [3, 5, 3].getD n 0
    isModuleLogic := fun _ => false
    GetModuleShareDirectory := fun n p => p ++ n }

/-- A module whose tracking list is `[3, 5, 3]` and whose primary
representation is the one at address 3, as `repeatingModule` builds it with one
call of `widgetRepresentation()` and two of `createNewWidgetRepresentation()`. -/
def trackedModule : World :=
  { newModule Memory.zero with
    d := { qSlicerAbstractCoreModulePrivate.new with
      WidgetRepresentation := 3
      WidgetRepresentations := [3, 5, 3] }
    createWidgetRepresentationCalls := 3 }

/-- Modelled from the spec: the script files that the scripting-engine manager
(`qSlicerPythonManager`, not in the source) can load by path.  A script file is
given by the names of the functions it defines; `none` is a path without a
script file. -/
abbrev ScriptFiles := String → Option (List String)

/-- Modelled from the spec: the class `qSlicerScriptedLoadableModuleWidget` is
not in the source, only its test is.  A scripted widget has a script source
(a path), the named callables bound when the script was loaded, and the
properties set on it inside the scripting environment. -/
structure qSlicerScriptedLoadableModuleWidget where
  PythonSource : String
  callables : List String
  properties : List (String × Bool)

/-- Modelled from the spec: a newly constructed scripted widget has an empty
script source, no bound callable and no property. -/
def qSlicerScriptedLoadableModuleWidget.new : qSlicerScriptedLoadableModuleWidget :=
  { PythonSource := ""
    callables := []
    properties := [] }

/-- Modelled from the spec: the accessor `pythonSource()` of a scripted widget. -/
def pythonSource (w : qSlicerScriptedLoadableModuleWidget) : String :=
  w.PythonSource

/-- Modelled from the spec: `setPythonSource(path)` loads the script at the
path, binds the lifecycle functions `setup`, `enter` and `exit` that the script
defines (none when no script is there), and keeps the path as the script
source. -/
def setPythonSource (files : ScriptFiles) (newPythonSource : String)
    (w : qSlicerScriptedLoadableModuleWidget) : qSlicerScriptedLoadableModuleWidget :=
  { w with
    PythonSource := newPythonSource
    callables := ((files newPythonSource).getD []).filter
      (fun f => decide (f ∈ ["setup", "enter", "exit"])) }

/-- Modelled from the spec: `property(name).toBool()` of a scripted widget; a
property never set reads as false. -/
def property (w : qSlicerScriptedLoadableModuleWidget) (key : String) : Bool :=
  (w.properties.lookup key).getD false

/-- Modelled from the spec: a lifecycle call is forwarded to the callable of
that name, when one is bound; running it sets the flag
`<name>_called_within_Python` to true inside the scripting environment. -/
def invokeCallable (f : String) (w : qSlicerScriptedLoadableModuleWidget) :
    qSlicerScriptedLoadableModuleWidget :=
  if f ∈ w.callables then
    { w with properties := (f ++ "_called_within_Python", true) :: w.properties }
  else w

/-- Modelled from the spec: the lifecycle call `enter()` of a scripted widget. -/
def enter (w : qSlicerScriptedLoadableModuleWidget) : qSlicerScriptedLoadableModuleWidget :=
  invokeCallable "enter" w

/-- Modelled from the spec: the lifecycle call `exit()` of a scripted widget. -/
def exit (w : qSlicerScriptedLoadableModuleWidget) : qSlicerScriptedLoadableModuleWidget :=
  invokeCallable "exit" w

/-- Modelled from the spec: the lifecycle call `setup()` of a scripted widget. -/
def setup (w : qSlicerScriptedLoadableModuleWidget) : qSlicerScriptedLoadableModuleWidget :=
  invokeCallable "setup" w

/-- The script files of the test: the widget script defines the three
lifecycle functions, the module script defines none of them. -/
def testScripts : ScriptFiles := fun scriptPath =>
  if scriptPath = "qSlicerScriptedLoadableModuleTestWidget.py" then
    some ["setup", "enter", "exit"]
  else if scriptPath = "qSlicerScriptedLoadableModuleTest.py" then some []
  else none

/-! ## The accessor `logic()` -/

theorem logic_of_ne (h : Subclass) (w : World) (hl : w.d.Logic ≠ 0) :
    logic h w = (w, w.d.Logic) := by
  simp [logic, hl]

theorem logic_snd (h : Subclass) (w : World) : (logic h w).2 = (logic h w).1.d.Logic := by
  simp only [logic]
  split_ifs <;> rfl

theorem logic_fst_Logic (h : Subclass) (w : World) :
    (logic h w).1.d.Logic =
      if w.d.Logic ≠ 0 then w.d.Logic else h.createLogic w.createLogicCalls := by
  simp only [logic]
  split_ifs <;> simp_all

theorem logic_fst_calls (h : Subclass) (w : World) :
    (logic h w).1.createLogicCalls =
      if w.d.Logic ≠ 0 then w.createLogicCalls else w.createLogicCalls + 1 := by
  simp only [logic]
  split_ifs <;> simp_all

theorem logic_fst_frame (h : Subclass) (w : World) :
    (logic h w).1.d.MRMLScene = w.d.MRMLScene ∧
    (logic h w).1.d.AppLogic = w.d.AppLogic ∧
    (logic h w).1.d.WidgetRepresentation = w.d.WidgetRepresentation ∧
    (logic h w).1.d.WidgetRepresentations = w.d.WidgetRepresentations ∧
    (logic h w).1.d.Name = w.d.Name ∧
    (logic h w).1.mem.widgetScene = w.mem.widgetScene ∧
    (logic h w).1.mem.widgetModuleSet = w.mem.widgetModuleSet ∧
    (logic h w).1.createWidgetRepresentationCalls = w.createWidgetRepresentationCalls ∧
    (logic h w).1.setupCalls = w.setupCalls ∧
    (logic h w).1.debugOutput = w.debugOutput := by
  simp only [logic]
  split_ifs <;> simp_all

theorem logic_sync (h : Subclass) (w : World) (hs : LogicInSync h w) :
    LogicInSync h (logic h w).1 := by
  unfold LogicInSync at *
  simp only [logic]
  split_ifs <;> simp_all [store, mrmlScene]

theorem logic_creationLog (h : Subclass) (w : World) (hc : CreationLog h w) :
    CreationLog h (logic h w).1 := by
  by_cases hl : w.d.Logic ≠ 0
  · rw [logic_of_ne h w hl]
    exact hc
  · have hl0 : w.d.Logic = 0 := not_not.mp hl
    have hz := hc.1 hl0
    unfold CreationLog
    rw [logic_fst_Logic, logic_fst_calls]
    simp only [hl, if_false]
    constructor
    · intro hnew k hk
      rcases Nat.lt_succ_iff_lt_or_eq.mp hk with hlt | heq
      · exact hz k hlt
      · rw [heq]
        exact hnew
    · intro _
      exact ⟨w.createLogicCalls, rfl, rfl, hz⟩

/-! ## The consistency assertion and `createNewWidgetRepresentation()` -/

theorem consistencyCheck_some (debug : Bool) (h : Subclass) (w w1 : World)
    (hc : consistencyCheck debug h w = some w1) :
    (debug = false ∧ w1 = w) ∨
    (debug = true ∧ w1 = (logic h w).1 ∧ w.d.Logic = (logic h w).2) := by
  cases debug with
  | false =>
    left
    simp [consistencyCheck] at hc
    exact ⟨rfl, hc.symm⟩
  | true =>
    right
    simp only [consistencyCheck, if_true] at hc
    split_ifs at hc with heq
    exact ⟨rfl, (Option.some.inj hc).symm, heq⟩

theorem consistencyCheck_passes_iff (debug : Bool) (h : Subclass) (w : World) :
    (consistencyCheck debug h w).isSome = true ↔
      (debug = false ∨ w.d.Logic ≠ 0 ∨ h.createLogic w.createLogicCalls = 0) := by
  cases debug with
  | false => simp [consistencyCheck]
  | true =>
    simp only [consistencyCheck, if_true, logic_snd, logic_fst_Logic]
    by_cases hl : w.d.Logic = 0
    · by_cases hcl : h.createLogic w.createLogicCalls = 0
      · simp [hl, hcl]
      · have hne : ¬ (0 = h.createLogic w.createLogicCalls) := fun e => hcl e.symm
        simp [hl, hcl, hne]
    · simp [hl]

theorem consistencyCheck_frame (debug : Bool) (h : Subclass) (w w1 : World)
    (hc : consistencyCheck debug h w = some w1) :
    w1.d = w.d ∧ w1.mem.widgetScene = w.mem.widgetScene ∧
    w1.mem.widgetModuleSet = w.mem.widgetModuleSet ∧
    w1.mem.logicScene = w.mem.logicScene ∧
    w1.mem.logicAppLogic = w.mem.logicAppLogic ∧
    w1.createWidgetRepresentationCalls = w.createWidgetRepresentationCalls ∧
    w1.setupCalls = w.setupCalls ∧ w1.debugOutput = w.debugOutput ∧
    (w.d.Logic ≠ 0 → w1.createLogicCalls = w.createLogicCalls) ∧
    w.createLogicCalls ≤ w1.createLogicCalls := by
  rcases consistencyCheck_some debug h w w1 hc with ⟨_, rfl⟩ | ⟨_, rfl, heq⟩
  · simp
  · by_cases hl : w.d.Logic ≠ 0
    · rw [logic_of_ne h w hl]
      simp
    · have hl0 : w.d.Logic = 0 := not_not.mp hl
      have hnew : h.createLogic w.createLogicCalls = 0 := by
        rw [logic_snd, logic_fst_Logic] at heq
        simp only [hl, if_false] at heq
        rw [← heq, hl0]
      simp only [logic, hl, if_false, hnew]
      simp only [ne_eq, not_true_eq_false, if_false, true_and, and_true, le_add_iff_nonneg_right,
        zero_le, implies_true]
      cases hd : w.d with
      | mk a b c e f g i j k =>
        rw [hd] at hl0
        simp only at hl0
        simp [hl0]

theorem consistencyCheck_sync (debug : Bool) (h : Subclass) (w w1 : World)
    (hc : consistencyCheck debug h w = some w1) (hs : LogicInSync h w) :
    LogicInSync h w1 := by
  rcases consistencyCheck_some debug h w w1 hc with ⟨_, rfl⟩ | ⟨_, rfl, _⟩
  · exact hs
  · exact logic_sync h w hs

theorem consistencyCheck_creationLog (debug : Bool) (h : Subclass) (w w1 : World)
    (hc : consistencyCheck debug h w = some w1) (hs : CreationLog h w) :
    CreationLog h w1 := by
  rcases consistencyCheck_some debug h w w1 hc with ⟨_, rfl⟩ | ⟨_, rfl, _⟩
  · exact hs
  · exact logic_creationLog h w hs

theorem logic_recordCall (h : Subclass) (w : World) (n : Nat) :
    logic h { w with createWidgetRepresentationCalls := n } =
      ({ (logic h w).1 with createWidgetRepresentationCalls := n }, (logic h w).2) := by
  simp only [logic]
  split_ifs <;> rfl

/-- The world in which `createNewWidgetRepresentation()` registers the new
representation: the one that passed the consistency check and, when
`setModule` has run, went through `logic()`.  Everything but the module's logic
is as in the world `w` at the call. -/
theorem prepared_frame (debug : Bool) (h : Subclass) (w w0 w1 : World)
    (hcc : consistencyCheck debug h w = some w0)
    (hmid : w1 = w0 ∨ w1 = (logic h w0).1) :
    w1.d.MRMLScene = w.d.MRMLScene ∧ w1.d.AppLogic = w.d.AppLogic ∧
    w1.d.WidgetRepresentation = w.d.WidgetRepresentation ∧
    w1.d.WidgetRepresentations = w.d.WidgetRepresentations ∧
    w1.d.Name = w.d.Name ∧ w1.mem.widgetScene = w.mem.widgetScene ∧
    w1.createWidgetRepresentationCalls = w.createWidgetRepresentationCalls ∧
    w1.debugOutput = w.debugOutput ∧
    (w.d.Logic ≠ 0 → w1.d.Logic = w.d.Logic ∧ w1.createLogicCalls = w.createLogicCalls) ∧
    (LogicInSync h w → LogicInSync h w1) ∧ (CreationLog h w → CreationLog h w1) := by
  obtain ⟨hd, hws, _, _, _, hwc, _, hout, hcalls, _⟩ := consistencyCheck_frame debug h w w0 hcc
  rcases hmid with rfl | rfl
  · refine ⟨by rw [hd], by rw [hd], by rw [hd], by rw [hd], by rw [hd], hws, hwc, hout, ?_,
      consistencyCheck_sync debug h w w1 hcc, consistencyCheck_creationLog debug h w w1 hcc⟩
    intro hl
    exact ⟨by rw [hd], hcalls hl⟩
  · obtain ⟨gS, gA, gP, gl, gN, gws, _, gwc, _, gout⟩ := logic_fst_frame h w0
    refine ⟨by rw [gS, hd], by rw [gA, hd], by rw [gP, hd], by rw [gl, hd], by rw [gN, hd],
      by rw [gws, hws], by rw [gwc, hwc], by rw [gout, hout], ?_,
      fun hs => logic_sync h w0 (consistencyCheck_sync debug h w w0 hcc hs),
      fun hs => logic_creationLog h w0 (consistencyCheck_creationLog debug h w w0 hcc hs)⟩
    intro hl
    have hl0 : w0.d.Logic ≠ 0 := by
      rw [hd]
      exact hl
    rw [logic_of_ne h w0 hl0]
    exact ⟨by rw [hd], hcalls hl⟩

/-- What a returning call of `createNewWidgetRepresentation()` does to the
world `w1` in which the new representation is registered. -/
theorem createNewWidgetRepresentation_some (debug : Bool) (h : Subclass) (w w2 : World)
    (r : Ptr) (hc : createNewWidgetRepresentation debug h w = some (w2, r)) :
    ∃ w1, (∃ w0, consistencyCheck debug h w = some w0 ∧
        (w1 = w0 ∨ w1 = (logic h w0).1) ∧ (r = 0 → w1 = w0) ∧
        (r ≠ 0 → w1 = (logic h w0).1)) ∧
      r = h.createWidgetRepresentation w1.createWidgetRepresentationCalls ∧
      w2.createWidgetRepresentationCalls = w1.createWidgetRepresentationCalls + 1 ∧
      w2.createLogicCalls = w1.createLogicCalls ∧ w2.setupCalls = w1.setupCalls ∧
      w2.d.Logic = w1.d.Logic ∧ w2.d.MRMLScene = w1.d.MRMLScene ∧
      w2.d.AppLogic = w1.d.AppLogic ∧
      w2.d.WidgetRepresentation = w1.d.WidgetRepresentation ∧
      w2.mem.logicScene = w1.mem.logicScene ∧ w2.mem.logicAppLogic = w1.mem.logicAppLogic ∧
      (r = 0 → w2.d.WidgetRepresentations = w1.d.WidgetRepresentations ∧
        w2.mem.widgetScene = w1.mem.widgetScene ∧
        w2.debugOutput = w1.debugOutput ++
          [["Warning, the module ", w1.d.Name, "has no widget representation"]]) ∧
      (r ≠ 0 → w2.d.WidgetRepresentations = w1.d.WidgetRepresentations ++ [r] ∧
        w2.mem.widgetScene = store w1.mem.widgetScene r w1.d.MRMLScene ∧
        w2.mem.widgetModuleSet = store w1.mem.widgetModuleSet r true ∧
        w2.mem.widgetLogic = store w1.mem.widgetLogic r w1.d.Logic ∧
        w2.debugOutput = w1.debugOutput) := by
  unfold createNewWidgetRepresentation at hc
  cases hcc : consistencyCheck debug h w with
  | none => simp [hcc] at hc
  | some w0 =>
    simp only [hcc] at hc
    split_ifs at hc with hr
    · simp only [Option.some.injEq, Prod.mk.injEq] at hc
      obtain ⟨rfl, rfl⟩ := hc
      refine ⟨w0, ⟨w0, rfl, Or.inl rfl, fun _ => rfl, fun hne => absurd rfl hne⟩, ?_⟩
      simp [hr, name]
    · simp only [Option.some.injEq, Prod.mk.injEq] at hc
      obtain ⟨rfl, rfl⟩ := hc
      obtain ⟨_, _, _, _, _, _, _, gwc, _⟩ := logic_fst_frame h w0
      refine ⟨(logic h w0).1, ⟨w0, rfl, Or.inr rfl, fun hz => absurd hz hr, fun _ => rfl⟩, ?_⟩
      simp [hr, mrmlScene, setModule, logic_recordCall, gwc, logic_snd]

theorem createNewWidgetRepresentation_sync (debug : Bool) (h : Subclass) (w w2 : World)
    (r : Ptr) (hc : createNewWidgetRepresentation debug h w = some (w2, r))
    (hs : LogicInSync h w) : LogicInSync h w2 := by
  obtain ⟨w1, ⟨w0, hcc, hmid, _⟩, _, _, _, _, hL, hS, hA, _, hls, hla, _, _⟩ :=
    createNewWidgetRepresentation_some debug h w w2 r hc
  obtain ⟨pS, pA, pP, pl, pN, pws, pwc, pout, plog, psync, pcl⟩ :=
    prepared_frame debug h w w0 w1 hcc hmid
  have h1 := psync hs
  unfold LogicInSync at *
  rw [hL, hS, hA, hls, hla]
  exact h1

theorem createNewWidgetRepresentation_creationLog (debug : Bool) (h : Subclass) (w w2 : World)
    (r : Ptr) (hc : createNewWidgetRepresentation debug h w = some (w2, r))
    (hs : CreationLog h w) : CreationLog h w2 := by
  obtain ⟨w1, ⟨w0, hcc, hmid, _⟩, _, _, hC, _, hL, _⟩ :=
    createNewWidgetRepresentation_some debug h w w2 r hc
  obtain ⟨pS, pA, pP, pl, pN, pws, pwc, pout, plog, psync, pcl⟩ :=
    prepared_frame debug h w w0 w1 hcc hmid
  have h1 := pcl hs
  unfold CreationLog at *
  rw [hL, hC]
  exact h1

theorem createNewWidgetRepresentation_primary (debug : Bool) (h : Subclass) (w w2 : World)
    (r : Ptr) (hc : createNewWidgetRepresentation debug h w = some (w2, r))
    (hs : PrimaryInSync w) : PrimaryInSync w2 := by
  obtain ⟨w1, ⟨w0, hcc, hmid, _⟩, _, _, _, _, _, hS, _, hP, _, _, h0, hne⟩ :=
    createNewWidgetRepresentation_some debug h w w2 r hc
  obtain ⟨pS, pA, pP, pl, pN, pws, pwc, pout, plog, psync, pcl⟩ :=
    prepared_frame debug h w w0 w1 hcc hmid
  unfold PrimaryInSync at *
  rw [hP, hS, pP, pS]
  intro hp
  by_cases hr : r = 0
  · rw [(h0 hr).2.1, pws]
    exact hs hp
  · rw [(hne hr).2.1, pws, pS]
    unfold store
    split_ifs
    · rfl
    · exact hs hp

/-! ## The other member functions -/

theorem setMRMLScene_frame (s : Ptr) (w : World) :
    (setMRMLScene s w).d.MRMLScene = s ∧
    (setMRMLScene s w).d.Logic = w.d.Logic ∧
    (setMRMLScene s w).d.AppLogic = w.d.AppLogic ∧
    (setMRMLScene s w).d.WidgetRepresentation = w.d.WidgetRepresentation ∧
    (setMRMLScene s w).d.WidgetRepresentations = w.d.WidgetRepresentations ∧
    (setMRMLScene s w).mem.logicAppLogic = w.mem.logicAppLogic ∧
    (setMRMLScene s w).createLogicCalls = w.createLogicCalls ∧
    (setMRMLScene s w).createWidgetRepresentationCalls = w.createWidgetRepresentationCalls := by
  simp only [setMRMLScene]
  split_ifs <;> simp_all

theorem setMRMLScene_sync (h : Subclass) (s : Ptr) (w : World) (hs : LogicInSync h w) :
    LogicInSync h (setMRMLScene s w) := by
  unfold LogicInSync at *
  simp only [setMRMLScene]
  split_ifs <;> simp_all [store]

theorem setMRMLScene_primary (s : Ptr) (w : World) (hs : PrimaryInSync w) :
    PrimaryInSync (setMRMLScene s w) := by
  unfold PrimaryInSync at *
  simp only [setMRMLScene]
  split_ifs <;> simp_all [store]

theorem setAppLogic_frame (h : Subclass) (a : Ptr) (w : World) :
    (setAppLogic h a w).d.AppLogic = a ∧
    (setAppLogic h a w).d.Logic = w.d.Logic ∧
    (setAppLogic h a w).d.MRMLScene = w.d.MRMLScene ∧
    (setAppLogic h a w).d.WidgetRepresentation = w.d.WidgetRepresentation ∧
    (setAppLogic h a w).d.WidgetRepresentations = w.d.WidgetRepresentations ∧
    (setAppLogic h a w).mem.logicScene = w.mem.logicScene ∧
    (setAppLogic h a w).mem.widgetScene = w.mem.widgetScene ∧
    (setAppLogic h a w).createLogicCalls = w.createLogicCalls ∧
    (setAppLogic h a w).createWidgetRepresentationCalls = w.createWidgetRepresentationCalls := by
  simp only [setAppLogic]
  split_ifs <;> simp_all

theorem setAppLogic_sync (h : Subclass) (a : Ptr) (w : World) (hs : LogicInSync h w) :
    LogicInSync h (setAppLogic h a w) := by
  unfold LogicInSync at *
  simp only [setAppLogic]
  split_ifs <;> simp_all [store]

theorem representationDeleted_frame (r : Ptr) (w : World) :
    (representationDeleted r w).d.Logic = w.d.Logic ∧
    (representationDeleted r w).d.MRMLScene = w.d.MRMLScene ∧
    (representationDeleted r w).d.AppLogic = w.d.AppLogic ∧
    (representationDeleted r w).d.WidgetRepresentations =
      removeAll r w.d.WidgetRepresentations ∧
    (representationDeleted r w).d.WidgetRepresentation =
      (if w.d.WidgetRepresentation = r then 0 else w.d.WidgetRepresentation) ∧
    (representationDeleted r w).mem = w.mem ∧
    (representationDeleted r w).createLogicCalls = w.createLogicCalls ∧
    (representationDeleted r w).createWidgetRepresentationCalls =
      w.createWidgetRepresentationCalls ∧
    (representationDeleted r w).setupCalls = w.setupCalls ∧
    (representationDeleted r w).debugOutput = w.debugOutput := by
  simp only [representationDeleted]
  split_ifs <;> simp_all

theorem LogicInSync_congr (h : Subclass) (w w1 : World) (hL : w1.d.Logic = w.d.Logic)
    (hS : w1.d.MRMLScene = w.d.MRMLScene) (hA : w1.d.AppLogic = w.d.AppLogic)
    (hls : w1.mem.logicScene = w.mem.logicScene)
    (hla : w1.mem.logicAppLogic = w.mem.logicAppLogic) (hs : LogicInSync h w) :
    LogicInSync h w1 := by
  unfold LogicInSync at *
  rw [hL, hS, hA, hls, hla]
  exact hs

theorem PrimaryInSync_congr (w w1 : World)
    (hP : w1.d.WidgetRepresentation = w.d.WidgetRepresentation)
    (hS : w1.d.MRMLScene = w.d.MRMLScene) (hws : w1.mem.widgetScene = w.mem.widgetScene)
    (hs : PrimaryInSync w) : PrimaryInSync w1 := by
  unfold PrimaryInSync at *
  rw [hP, hS, hws]
  exact hs

theorem CreationLog_congr (h : Subclass) (w w1 : World) (hL : w1.d.Logic = w.d.Logic)
    (hC : w1.createLogicCalls = w.createLogicCalls) (hs : CreationLog h w) :
    CreationLog h w1 := by
  unfold CreationLog at *
  rw [hL, hC]
  exact hs

theorem initializeModule_eq (h : Subclass) (a : Ptr) (w : World) :
    (initializeModule h a w).d = (logic h (setAppLogic h a w)).1.d ∧
    (initializeModule h a w).mem = (logic h (setAppLogic h a w)).1.mem ∧
    (initializeModule h a w).createLogicCalls =
      (logic h (setAppLogic h a w)).1.createLogicCalls ∧
    (initializeModule h a w).createWidgetRepresentationCalls =
      (logic h (setAppLogic h a w)).1.createWidgetRepresentationCalls ∧
    (initializeModule h a w).setupCalls = (logic h (setAppLogic h a w)).1.setupCalls + 1 ∧
    (initializeModule h a w).debugOutput = (logic h (setAppLogic h a w)).1.debugOutput := by
  simp [initializeModule]

/-- What a returning call of `widgetRepresentation()` does: with a primary
representation the world is unchanged, without one the representation that
`createNewWidgetRepresentation()` returns becomes the primary one. -/
theorem widgetRepresentation_some (debug : Bool) (h : Subclass) (w w2 : World) (r : Ptr)
    (hc : widgetRepresentation debug h w = some (w2, r)) :
    (w.d.WidgetRepresentation ≠ 0 ∧ w2 = w ∧ r = w.d.WidgetRepresentation) ∨
    (w.d.WidgetRepresentation = 0 ∧ ∃ w1,
      createNewWidgetRepresentation debug h w = some (w1, r) ∧
      w2 = { w1 with d := { w1.d with WidgetRepresentation := r } }) := by
  unfold widgetRepresentation at hc
  split_ifs at hc with hp
  · right
    refine ⟨hp, ?_⟩
    cases hcn : createNewWidgetRepresentation debug h w with
    | none => simp [hcn] at hc
    | some res =>
      obtain ⟨w1, r1⟩ := res
      simp only [hcn, Option.some.injEq, Prod.mk.injEq] at hc
      obtain ⟨rfl, rfl⟩ := hc
      exact ⟨w1, rfl, rfl⟩
  · left
    simp only [Option.some.injEq, Prod.mk.injEq] at hc
    exact ⟨hp, hc.1.symm, hc.2.symm⟩

theorem newModule_inv (h : Subclass) (mem : Memory) : Inv h (newModule mem) := by
  refine ⟨?_, ?_, ?_, ?_⟩
  · intro hl
    exact absurd rfl hl
  · intro hl
    exact absurd rfl hl
  · intro _ k hk
    exact absurd hk (Nat.not_lt_zero k)
  · intro hl
    exact absurd rfl hl

theorem step_inv (debug : Bool) (h : Subclass) (op : Op) (w w1 : World) (hi : Inv h w)
    (hs : step debug h op w = some w1) : Inv h w1 := by
  obtain ⟨hL, hP, hC⟩ := hi
  cases op with
  | init a =>
    simp only [step, Option.some.injEq] at hs
    subst hs
    obtain ⟨hd, hm, hcl, _⟩ := initializeModule_eq h a w
    obtain ⟨_, fL, fS, fP, _, fls, fws, fC, _⟩ := setAppLogic_frame h a w
    obtain ⟨gS, gA, gP, _, _, gws, _⟩ := logic_fst_frame h (setAppLogic h a w)
    refine ⟨?_, ?_, ?_⟩
    · exact LogicInSync_congr h _ _ (by rw [hd]) (by rw [hd]) (by rw [hd]) (by rw [hm])
        (by rw [hm]) (logic_sync h _ (setAppLogic_sync h a w hL))
    · exact PrimaryInSync_congr w _ (by rw [hd, gP, fP]) (by rw [hd, gS, fS])
        (by rw [hm, gws, fws]) hP
    · exact CreationLog_congr h _ _ (by rw [hd]) hcl
        (logic_creationLog h _ (CreationLog_congr h w _ fL fC hC))
  | logic =>
    simp only [step, Option.some.injEq] at hs
    subst hs
    obtain ⟨gS, gA, gP, _, _, gws, _⟩ := logic_fst_frame h w
    exact ⟨logic_sync h w hL, PrimaryInSync_congr w _ gP gS gws hP, logic_creationLog h w hC⟩
  | setMRMLScene s =>
    simp only [step, Option.some.injEq] at hs
    subst hs
    obtain ⟨_, fL, _, _, _, _, fC, _⟩ := setMRMLScene_frame s w
    exact ⟨setMRMLScene_sync h s w hL, setMRMLScene_primary s w hP,
      CreationLog_congr h w _ fL fC hC⟩
  | setAppLogic a =>
    simp only [step, Option.some.injEq] at hs
    subst hs
    obtain ⟨_, fL, fS, fP, _, fls, fws, fC, _⟩ := setAppLogic_frame h a w
    exact ⟨setAppLogic_sync h a w hL, PrimaryInSync_congr w _ fP fS fws hP,
      CreationLog_congr h w _ fL fC hC⟩
  | widgetRepresentation =>
    simp only [step, Option.map_eq_some', Prod.exists, exists_and_right, exists_eq_right] at hs
    obtain ⟨r, hs⟩ := hs
    rcases widgetRepresentation_some debug h w w1 r hs with ⟨_, rfl, _⟩ | ⟨hp0, w2, hcn, rfl⟩
    · exact ⟨hL, hP, hC⟩
    · refine ⟨?_, ?_, ?_⟩
      · exact LogicInSync_congr h w2 _ rfl rfl rfl rfl rfl
          (createNewWidgetRepresentation_sync debug h w w2 r hcn hL)
      · obtain ⟨w0, hcc, _, _, _, _, _, hS, _, _, _, _, _, hne⟩ :=
          createNewWidgetRepresentation_some debug h w w2 r hcn
        intro hr
        have hr0 : r ≠ 0 := hr
        show w2.mem.widgetScene r = w2.d.MRMLScene
        rw [(hne hr0).2.1, hS]
        simp [store]
      · exact CreationLog_congr h w2 _ rfl rfl
          (createNewWidgetRepresentation_creationLog debug h w w2 r hcn hC)
  | createNewWidgetRepresentation =>
    simp only [step, Option.map_eq_some', Prod.exists, exists_and_right, exists_eq_right] at hs
    obtain ⟨r, hs⟩ := hs
    exact ⟨createNewWidgetRepresentation_sync debug h w w1 r hs hL,
      createNewWidgetRepresentation_primary debug h w w1 r hs hP,
      createNewWidgetRepresentation_creationLog debug h w w1 r hs hC⟩
  | representationDeleted r =>
    simp only [step, Option.some.injEq] at hs
    subst hs
    obtain ⟨fL, fS, fA, _, fP, fm, fC, _⟩ := representationDeleted_frame r w
    refine ⟨LogicInSync_congr h w _ fL fS fA (by rw [fm]) (by rw [fm]) hL, ?_,
      CreationLog_congr h w _ fL fC hC⟩
    unfold PrimaryInSync at *
    rw [fP, fS, fm]
    split_ifs with hp
    · intro hne
      exact absurd rfl hne
    · exact hP

theorem run_inv (debug : Bool) (h : Subclass) (ops : List Op) : ∀ (w w1 : World),
    Inv h w → run debug h ops w = some w1 → Inv h w1 := by
  induction ops with
  | nil =>
    intro w w1 hi hr
    simp only [run, Option.some.injEq] at hr
    rw [← hr]
    exact hi
  | cons op ops ih =>
    intro w w1 hi hr
    simp only [run] at hr
    cases hs : step debug h op w with
    | none => simp [hs] at hr
    | some w2 =>
      simp only [hs] at hr
      exact ih w2 w1 (step_inv debug h op w w2 hi hs) hr

theorem step_logic_stable (debug : Bool) (h : Subclass) (op : Op) (w w1 : World)
    (hl : w.d.Logic ≠ 0) (hs : step debug h op w = some w1) :
    w1.d.Logic = w.d.Logic ∧ w1.createLogicCalls = w.createLogicCalls := by
  cases op with
  | init a =>
    simp only [step, Option.some.injEq] at hs
    subst hs
    obtain ⟨hd, _, hcl, _⟩ := initializeModule_eq h a w
    obtain ⟨_, fL, _, _, _, _, _, fC, _⟩ := setAppLogic_frame h a w
    have hl1 : (setAppLogic h a w).d.Logic ≠ 0 := by rw [fL]; exact hl
    rw [hd, hcl, logic_of_ne h _ hl1]
    exact ⟨fL, fC⟩
  | logic =>
    simp only [step, Option.some.injEq] at hs
    subst hs
    rw [logic_of_ne h w hl]
    exact ⟨rfl, rfl⟩
  | setMRMLScene s =>
    simp only [step, Option.some.injEq] at hs
    subst hs
    obtain ⟨_, fL, _, _, _, _, fC, _⟩ := setMRMLScene_frame s w
    exact ⟨fL, fC⟩
  | setAppLogic a =>
    simp only [step, Option.some.injEq] at hs
    subst hs
    obtain ⟨_, fL, _, _, _, _, _, fC, _⟩ := setAppLogic_frame h a w
    exact ⟨fL, fC⟩
  | widgetRepresentation =>
    simp only [step, Option.map_eq_some', Prod.exists, exists_and_right, exists_eq_right] at hs
    obtain ⟨r, hs⟩ := hs
    rcases widgetRepresentation_some debug h w w1 r hs with ⟨_, rfl, _⟩ | ⟨_, w2, hcn, rfl⟩
    · exact ⟨rfl, rfl⟩
    · obtain ⟨w0, ⟨w00, hcc, hmid, _⟩, _, _, hC, _, hL, _⟩ :=
        createNewWidgetRepresentation_some debug h w w2 r hcn
      obtain ⟨pS, pA, pP, pl, pN, pws, pwc, pout, plog, psync, pcl⟩ :=
        prepared_frame debug h w w00 w0 hcc hmid
      show w2.d.Logic = w.d.Logic ∧ w2.createLogicCalls = w.createLogicCalls
      rw [hL, hC]
      exact plog hl
  | createNewWidgetRepresentation =>
    simp only [step, Option.map_eq_some', Prod.exists, exists_and_right, exists_eq_right] at hs
    obtain ⟨r, hs⟩ := hs
    obtain ⟨w0, ⟨w00, hcc, hmid, _⟩, _, _, hC, _, hL, _⟩ :=
      createNewWidgetRepresentation_some debug h w w1 r hs
    obtain ⟨pS, pA, pP, pl, pN, pws, pwc, pout, plog, psync, pcl⟩ :=
      prepared_frame debug h w w00 w0 hcc hmid
    rw [hL, hC]
    exact plog hl
  | representationDeleted r =>
    simp only [step, Option.some.injEq] at hs
    subst hs
    obtain ⟨fL, _, _, _, _, _, fC, _⟩ := representationDeleted_frame r w
    exact ⟨fL, fC⟩

theorem run_logic_stable (debug : Bool) (h : Subclass) (ops : List Op) : ∀ (w w1 : World),
    w.d.Logic ≠ 0 → run debug h ops w = some w1 →
    w1.d.Logic = w.d.Logic ∧ w1.createLogicCalls = w.createLogicCalls := by
  induction ops with
  | nil =>
    intro w w1 _ hr
    simp only [run, Option.some.injEq] at hr
    rw [← hr]
    exact ⟨rfl, rfl⟩
  | cons op ops ih =>
    intro w w1 hl hr
    simp only [run] at hr
    cases hs : step debug h op w with
    | none => simp [hs] at hr
    | some w2 =>
      simp only [hs] at hr
      obtain ⟨h1, h2⟩ := step_logic_stable debug h op w w2 hl hs
      obtain ⟨h3, h4⟩ := ih w2 w1 (by rw [h1]; exact hl) hr
      exact ⟨h3.trans h1, h4.trans h2⟩

theorem createLogic_at_most_once (h : Subclass) (w : World) (hc : CreationLog h w)
    (i j : Nat) (hi : i < w.createLogicCalls) (hj : j < w.createLogicCalls)
    (hin : h.createLogic i ≠ 0) (hjn : h.createLogic j ≠ 0) : i = j := by
  by_cases hl : w.d.Logic = 0
  · exact absurd (hc.1 hl i hi) hin
  · obtain ⟨n, hn, _, hz⟩ := hc.2 hl
    rw [hn] at hi hj
    have h1 : i = n := by
      rcases Nat.lt_succ_iff_lt_or_eq.mp hi with hlt | heq
      · exact absurd (hz i hlt) hin
      · exact heq
    have h2 : j = n := by
      rcases Nat.lt_succ_iff_lt_or_eq.mp hj with hlt | heq
      · exact absurd (hz j hlt) hjn
      · exact heq
    rw [h1, h2]

theorem step_primary_stable (debug : Bool) (h : Subclass) (op : Op) (w w1 : World) (r : Ptr)
    (hp : w.d.WidgetRepresentation = r) (hr : r ≠ 0) (hop : op ≠ Op.representationDeleted r)
    (hs : step debug h op w = some w1) : w1.d.WidgetRepresentation = r := by
  cases op with
  | init a =>
    simp only [step, Option.some.injEq] at hs
    subst hs
    obtain ⟨hd, _⟩ := initializeModule_eq h a w
    obtain ⟨_, _, _, fP, _⟩ := setAppLogic_frame h a w
    obtain ⟨_, _, gP, _⟩ := logic_fst_frame h (setAppLogic h a w)
    rw [hd, gP, fP, hp]
  | logic =>
    simp only [step, Option.some.injEq] at hs
    subst hs
    obtain ⟨_, _, gP, _⟩ := logic_fst_frame h w
    rw [gP, hp]
  | setMRMLScene s =>
    simp only [step, Option.some.injEq] at hs
    subst hs
    obtain ⟨_, _, _, fP, _⟩ := setMRMLScene_frame s w
    rw [fP, hp]
  | setAppLogic a =>
    simp only [step, Option.some.injEq] at hs
    subst hs
    obtain ⟨_, _, _, fP, _⟩ := setAppLogic_frame h a w
    rw [fP, hp]
  | widgetRepresentation =>
    simp only [step, Option.map_eq_some', Prod.exists, exists_and_right, exists_eq_right] at hs
    obtain ⟨r1, hs⟩ := hs
    rcases widgetRepresentation_some debug h w w1 r1 hs with ⟨_, rfl, _⟩ | ⟨hp0, _⟩
    · exact hp
    · rw [hp] at hp0
      exact absurd hp0 hr
  | createNewWidgetRepresentation =>
    simp only [step, Option.map_eq_some', Prod.exists, exists_and_right, exists_eq_right] at hs
    obtain ⟨r1, hs⟩ := hs
    obtain ⟨w0, ⟨w00, hcc, hmid, _⟩, _, _, _, _, _, _, _, hP, _⟩ :=
      createNewWidgetRepresentation_some debug h w w1 r1 hs
    obtain ⟨pS, pA, pP, pl, pN, pws, pwc, pout, plog, psync, pcl⟩ :=
      prepared_frame debug h w w00 w0 hcc hmid
    rw [hP, pP, hp]
  | representationDeleted r1 =>
    simp only [step, Option.some.injEq] at hs
    subst hs
    obtain ⟨_, _, _, _, fP, _⟩ := representationDeleted_frame r1 w
    have hne : r ≠ r1 := fun e => hop (by rw [e])
    rw [fP, hp, if_neg hne]

theorem run_primary_stable (debug : Bool) (h : Subclass) (r : Ptr) (hr : r ≠ 0)
    (ops : List Op) : ∀ (w w1 : World), w.d.WidgetRepresentation = r →
    (∀ op, op ∈ ops → op ≠ Op.representationDeleted r) →
    run debug h ops w = some w1 → w1.d.WidgetRepresentation = r := by
  induction ops with
  | nil =>
    intro w w1 hp _ hrun
    simp only [run, Option.some.injEq] at hrun
    rw [← hrun]
    exact hp
  | cons op ops ih =>
    intro w w1 hp hops hrun
    simp only [run] at hrun
    cases hs : step debug h op w with
    | none => simp [hs] at hrun
    | some w2 =>
      simp only [hs] at hrun
      have h1 := step_primary_stable debug h op w w2 r hp hr
        (hops op (List.mem_cons_self op ops)) hs
      exact ih w2 w1 h1 (fun o ho => hops o (List.mem_cons_of_mem op ho)) hrun

theorem widgetRepresentation_of_primary (debug : Bool) (h : Subclass) (w : World)
    (hp : w.d.WidgetRepresentation ≠ 0) :
    widgetRepresentation debug h w = some (w, w.d.WidgetRepresentation) := by
  simp [widgetRepresentation, hp]

theorem createNewWidgetRepresentation_returns (debug : Bool) (h : Subclass) (w : World)
    (hpass : debug = false ∨ w.d.Logic ≠ 0 ∨ h.createLogic w.createLogicCalls = 0) :
    ∃ w2 r, createNewWidgetRepresentation debug h w = some (w2, r) := by
  have hsome := (consistencyCheck_passes_iff debug h w).mpr hpass
  obtain ⟨w1, hw1⟩ := Option.isSome_iff_exists.mp hsome
  unfold createNewWidgetRepresentation
  simp only [hw1]
  split_ifs
  · exact ⟨_, _, rfl⟩
  · exact ⟨_, _, rfl⟩

theorem createNewWidgetRepresentation_tracks (debug : Bool) (h : Subclass) (w : World)
    (hnn : h.createWidgetRepresentation w.createWidgetRepresentationCalls ≠ 0)
    (hpass : debug = false ∨ w.d.Logic ≠ 0 ∨ h.createLogic w.createLogicCalls = 0) :
    ∃ w2, createNewWidgetRepresentation debug h w =
        some (w2, h.createWidgetRepresentation w.createWidgetRepresentationCalls) ∧
      w2.createWidgetRepresentationCalls = w.createWidgetRepresentationCalls + 1 ∧
      w2.d.WidgetRepresentations = w.d.WidgetRepresentations ++
        [h.createWidgetRepresentation w.createWidgetRepresentationCalls] := by
  obtain ⟨w2, r, hc⟩ := createNewWidgetRepresentation_returns debug h w hpass
  obtain ⟨w1, ⟨w0, hcc, hmid, _⟩, hr, hcalls, _, _, _, _, _, _, _, _, _, hne⟩ :=
    createNewWidgetRepresentation_some debug h w w2 r hc
  obtain ⟨pS, pA, pP, pl, pN, pws, pwc, pout, plog, psync, pcl⟩ :=
    prepared_frame debug h w w0 w1 hcc hmid
  rw [pwc] at hr hcalls
  subst hr
  refine ⟨w2, hc, hcalls, ?_⟩
  rw [(hne hnn).1, pl]

/-! ## Teardown bookkeeping -/

theorem removeAll_not_mem (r : Ptr) (l : List Ptr) : r ∉ removeAll r l := by
  simp [removeAll]

theorem mem_removeAll (r x : Ptr) (l : List Ptr) : x ∈ removeAll r l ↔ x ∈ l ∧ x ≠ r := by
  simp [removeAll]

theorem removeAll_sublist (r : Ptr) (l : List Ptr) : (removeAll r l).Sublist l := by
  unfold removeAll
  exact List.filter_sublist l

theorem count_removeAll (r x : Ptr) (l : List Ptr) (hx : x ≠ r) :
    (removeAll r l).count x = l.count x := by
  unfold removeAll
  rw [List.count_filter]
  simpa using hx

theorem length_removeAll_le (r : Ptr) (l : List Ptr) : (removeAll r l).length ≤ l.length := by
  unfold removeAll
  exact List.length_filter_le _ l

theorem destructorLoop_spec (fuel : Nat) : ∀ (w : World) (acc : List Ptr),
    w.d.WidgetRepresentations.length ≤ fuel →
    ∃ w1 del, destructorLoop fuel w acc = some (w1, acc ++ del) ∧
      w1.d.WidgetRepresentations = [] ∧ del.Nodup ∧
      (∀ x, x ∈ del ↔ x ∈ w.d.WidgetRepresentations) ∧
      del.length ≤ w.d.WidgetRepresentations.length := by
  induction fuel with
  | zero =>
    intro w acc hlen
    have hnil : w.d.WidgetRepresentations = [] := List.length_eq_zero.mp (Nat.le_zero.mp hlen)
    refine ⟨w, [], ?_, hnil, List.nodup_nil, ?_, by simp⟩
    · unfold destructorLoop
      simp [hnil]
    · intro x
      simp [hnil]
  | succ n ih =>
    intro w acc hlen
    cases hl : w.d.WidgetRepresentations with
    | nil =>
      refine ⟨w, [], ?_, hl, List.nodup_nil, ?_, by simp⟩
      · unfold destructorLoop
        simp [hl]
      · intro x
        simp
    | cons r t =>
      have hlist : (deleteRepresentation r w).d.WidgetRepresentations = removeAll r t := by
        simp only [deleteRepresentation, representationDeleted]
        split <;> simp [hl, removeAll]
      have hlen1 : (deleteRepresentation r w).d.WidgetRepresentations.length ≤ n := by
        rw [hlist]
        have h1 := length_removeAll_le r t
        rw [hl] at hlen
        simp only [List.length_cons] at hlen
        omega
      obtain ⟨w1, del, hrun, hempty, hnodup, hmem, hdl⟩ :=
        ih (deleteRepresentation r w) (acc ++ [r]) hlen1
      refine ⟨w1, r :: del, ?_, hempty, ?_, ?_, ?_⟩
      · unfold destructorLoop
        simp only [hl]
        rw [hrun]
        simp
      · refine List.nodup_cons.mpr ⟨?_, hnodup⟩
        intro hr
        have := (hmem r).mp hr
        rw [hlist] at this
        exact removeAll_not_mem r t this
      · intro x
        rw [List.mem_cons, hmem x, hlist, mem_removeAll, List.mem_cons]
        by_cases hx : x = r
        · simp [hx]
        · simp [hx]
      · rw [hlist] at hdl
        have h1 := length_removeAll_le r t
        simp only [List.length_cons]
        omega

/-! ## The logic is created at most once -/

/-- C1: in every state a newly constructed module reaches through its member
functions, at most one call of `createLogic()` has returned a non-null logic;
and once `logic()` has returned a non-null logic, after any further sequence of
member-function calls `logic()` still returns that object, leaves the module as
it is, and the number of `createLogic()` calls has not grown. -/
theorem logic_created_at_most_once (debug : Bool) (h : Subclass) (mem : Memory)
    (ops : List Op) (w : World) (hr : run debug h ops (newModule mem) = some w) :
    (∀ i j, i < w.createLogicCalls → j < w.createLogicCalls →
      h.createLogic i ≠ 0 → h.createLogic j ≠ 0 → i = j) ∧
    ((logic h w).2 ≠ 0 → ∀ ops2 w2, run debug h ops2 (logic h w).1 = some w2 →
      logic h w2 = (w2, (logic h w).2) ∧
      w2.createLogicCalls = (logic h w).1.createLogicCalls) := by
  have hinv := run_inv debug h ops (newModule mem) w (newModule_inv h mem) hr
  refine ⟨fun i j hi hj => createLogic_at_most_once h w hinv.2.2 i j hi hj, ?_⟩
  intro hp ops2 w2 hr2
  have hl : (logic h w).1.d.Logic ≠ 0 := by
    rw [← logic_snd]
    exact hp
  obtain ⟨h1, h2⟩ := run_logic_stable debug h ops2 (logic h w).1 w2 hl hr2
  have hl2 : w2.d.Logic ≠ 0 := by
    rw [h1]
    exact hl
  refine ⟨?_, h2⟩
  rw [logic_of_ne h w2 hl2, h1, logic_snd]

/-- An initialized module keeps its logic through scene changes, widget
creation and deletion: `logic()` returns the object at address 5 again and
`createLogic()` has been called once. -/
theorem logic_created_at_most_once_witness :
    (logic exampleModule (initializeModule exampleModule 9 (newModule Memory.zero))).2 = 5 ∧
    (run true exampleModule
      [Op.setMRMLScene 7, Op.widgetRepresentation, Op.logic, Op.representationDeleted 1,
        Op.init 8]
      (logic exampleModule (initializeModule exampleModule 9 (newModule Memory.zero))).1).map
        (fun w2 => ((logic exampleModule w2).2, (logic exampleModule w2).1.createLogicCalls)) =
      some (5, 1) ∧
    ((∀ i j, i < (initializeModule exampleModule 9 (newModule Memory.zero)).createLogicCalls →
      j < (initializeModule exampleModule 9 (newModule Memory.zero)).createLogicCalls →
      exampleModule.createLogic i ≠ 0 → exampleModule.createLogic j ≠ 0 → i = j) ∧
    ((logic exampleModule (initializeModule exampleModule 9 (newModule Memory.zero))).2 ≠ 0 →
      ∀ ops2 w2, run true exampleModule ops2
        (logic exampleModule (initializeModule exampleModule 9 (newModule Memory.zero))).1 =
          some w2 →
      logic exampleModule w2 =
        (w2, (logic exampleModule (initializeModule exampleModule 9 (newModule Memory.zero))).2) ∧
      w2.createLogicCalls =
        (logic exampleModule
          (initializeModule exampleModule 9 (newModule Memory.zero))).1.createLogicCalls)) :=
  ⟨by decide, by decide,
    logic_created_at_most_once true exampleModule Memory.zero [Op.init 9]
      (initializeModule exampleModule 9 (newModule Memory.zero)) rfl⟩

/-! ## Deleting a widget representation -/

/-- C2: after `representationDeleted(r)` the tracking list holds no occurrence
of `r` and is otherwise the same list in the same order (it is a sublist of the
old list in which every other pointer occurs as often as before), and the
primary widget representation is null when it was `r` and unchanged when it
was not. -/
theorem representationDeleted_tracking (w : World) (r : Ptr) :
    r ∉ (representationDeleted r w).d.WidgetRepresentations ∧
    (representationDeleted r w).d.WidgetRepresentations.Sublist w.d.WidgetRepresentations ∧
    (∀ x, x ≠ r → (representationDeleted r w).d.WidgetRepresentations.count x =
      w.d.WidgetRepresentations.count x) ∧
    (w.d.WidgetRepresentation = r → (representationDeleted r w).d.WidgetRepresentation = 0) ∧
    (w.d.WidgetRepresentation ≠ r →
      (representationDeleted r w).d.WidgetRepresentation = w.d.WidgetRepresentation) := by
  obtain ⟨_, _, _, fl, fP, _⟩ := representationDeleted_frame r w
  rw [fl, fP]
  refine ⟨removeAll_not_mem r _, removeAll_sublist r _, fun x hx => count_removeAll r x _ hx,
    fun hp => if_pos hp, fun hp => if_neg hp⟩

/-! ## The private destructor -/

/-- C9: the loop of the private destructor, given at least as many iterations
as the tracking list is long, comes to its end; the tracking list is then empty
and every pointer that was in the list has been deleted exactly once, also when
it was in the list several times, and no other pointer has been deleted. -/
theorem destructorLoop_terminates (w : World) (fuel : Nat)
    (hfuel : w.d.WidgetRepresentations.length ≤ fuel) :
    ∃ w1 deleted, destructorLoop fuel w [] = some (w1, deleted) ∧
      w1.d.WidgetRepresentations = [] ∧
      deleted.length ≤ w.d.WidgetRepresentations.length ∧
      ∀ x, deleted.count x = if x ∈ w.d.WidgetRepresentations then 1 else 0 := by
  obtain ⟨w1, del, hrun, hempty, hnodup, hmem, hlen⟩ := destructorLoop_spec fuel w [] hfuel
  refine ⟨w1, del, by simpa using hrun, hempty, hlen, ?_⟩
  intro x
  split_ifs with hx
  · exact List.count_eq_one_of_mem hnodup ((hmem x).mpr hx)
  · exact List.count_eq_zero_of_not_mem (fun hd => hx ((hmem x).mp hd))

/-- The tracking list `[3, 5, 3]`, which a module reaches when its
`createWidgetRepresentation()` returns these addresses, is torn down in two
deletions, of 3 and of 5. -/
theorem destructorLoop_terminates_witness :
    (run true repeatingModule
        [Op.widgetRepresentation, Op.createNewWidgetRepresentation,
          Op.createNewWidgetRepresentation] (newModule Memory.zero)).map
      (fun w => (w.d.WidgetRepresentations, w.d.WidgetRepresentation)) =
      some (trackedModule.d.WidgetRepresentations, trackedModule.d.WidgetRepresentation) ∧
    (destructorLoop 3 trackedModule []).map
        (fun res => (res.2, res.1.d.WidgetRepresentations, res.1.d.WidgetRepresentation)) =
      some ([3, 5], [], 0) ∧
    ∃ w1 deleted, destructorLoop 3 trackedModule [] = some (w1, deleted) ∧
      w1.d.WidgetRepresentations = [] ∧
      deleted.length ≤ trackedModule.d.WidgetRepresentations.length ∧
      ∀ x, deleted.count x = if x ∈ trackedModule.d.WidgetRepresentations then 1 else 0 :=
  ⟨by decide, by decide, destructorLoop_terminates trackedModule 3 (by decide)⟩

/-! ## The logic stays in sync with the module -/

/-- C10: in every state a newly constructed module reaches through its member
functions, a logic held by the module has the module's scene and, when it is a
module logic, the module's application logic; `setMRMLScene` and `setAppLogic`
hand their argument to a logic the module holds, and neither changes which
logic the module holds nor calls `createLogic()`. -/
theorem logic_in_sync (debug : Bool) (h : Subclass) (mem : Memory) (ops : List Op)
    (w : World) (hr : run debug h ops (newModule mem) = some w) :
    (w.d.Logic ≠ 0 →
      w.mem.logicScene w.d.Logic = w.d.MRMLScene ∧
      (h.isModuleLogic w.d.Logic = true → w.mem.logicAppLogic w.d.Logic = w.d.AppLogic)) ∧
    (∀ s, (setMRMLScene s w).d.Logic = w.d.Logic ∧
      (setMRMLScene s w).createLogicCalls = w.createLogicCalls ∧
      (w.d.Logic ≠ 0 → (setMRMLScene s w).mem.logicScene w.d.Logic = s)) ∧
    (∀ a, (setAppLogic h a w).d.Logic = w.d.Logic ∧
      (setAppLogic h a w).createLogicCalls = w.createLogicCalls ∧
      (w.d.Logic ≠ 0 → h.isModuleLogic w.d.Logic = true →
        (setAppLogic h a w).mem.logicAppLogic w.d.Logic = a)) := by
  have hinv := run_inv debug h ops (newModule mem) w (newModule_inv h mem) hr
  refine ⟨hinv.1, ?_, ?_⟩
  · intro s
    obtain ⟨fS, fL, _, _, _, _, fC, _⟩ := setMRMLScene_frame s w
    refine ⟨fL, fC, ?_⟩
    intro hl
    have hs := setMRMLScene_sync h s w hinv.1
    unfold LogicInSync at hs
    rw [fL, fS] at hs
    exact (hs hl).1
  · intro a
    obtain ⟨fA, fL, _, _, _, _, _, fC, _⟩ := setAppLogic_frame h a w
    refine ⟨fL, fC, ?_⟩
    intro hl hm
    have hs := setAppLogic_sync h a w hinv.1
    unfold LogicInSync at hs
    rw [fL, fA] at hs
    exact (hs hl).2 hm

/-- After initialization with application logic 9, a scene change to 7 and a
new application logic 8, the logic at address 5 has scene 7 and application
logic 8. -/
theorem logic_in_sync_witness :
    (run true exampleModule [Op.init 9, Op.setMRMLScene 7, Op.setAppLogic 8]
        (newModule Memory.zero)).map
      (fun w => (w.d.Logic, w.d.MRMLScene, w.d.AppLogic, w.mem.logicScene 5,
        w.mem.logicAppLogic 5)) = some (5, 7, 8, 7, 8) ∧
    ((setAppLogic exampleModule 8 (setMRMLScene 7
        (initializeModule exampleModule 9 (newModule Memory.zero)))).mem.logicScene
      (setAppLogic exampleModule 8 (setMRMLScene 7
        (initializeModule exampleModule 9 (newModule Memory.zero)))).d.Logic =
      (setAppLogic exampleModule 8 (setMRMLScene 7
        (initializeModule exampleModule 9 (newModule Memory.zero)))).d.MRMLScene ∧
    (exampleModule.isModuleLogic (setAppLogic exampleModule 8 (setMRMLScene 7
        (initializeModule exampleModule 9 (newModule Memory.zero)))).d.Logic = true →
      (setAppLogic exampleModule 8 (setMRMLScene 7
        (initializeModule exampleModule 9 (newModule Memory.zero)))).mem.logicAppLogic
        (setAppLogic exampleModule 8 (setMRMLScene 7
          (initializeModule exampleModule 9 (newModule Memory.zero)))).d.Logic =
      (setAppLogic exampleModule 8 (setMRMLScene 7
        (initializeModule exampleModule 9 (newModule Memory.zero)))).d.AppLogic)) :=
  ⟨by decide,
    (logic_in_sync true exampleModule Memory.zero
      [Op.init 9, Op.setMRMLScene 7, Op.setAppLogic 8]
      (setAppLogic exampleModule 8 (setMRMLScene 7
        (initializeModule exampleModule 9 (newModule Memory.zero)))) rfl).1 (by decide)⟩

/-! ## Scene propagation -/

/-- C3, as stated, fails: an initialized module creates a widget representation
with `createNewWidgetRepresentation()` and is then given scene 7; the module's
scene is 7 and the representation at address 1 is in the tracking list, but its
scene is still the null scene it got when it was created. -/
theorem setMRMLScene_skips_tracked_representation :
    (run true exampleModule [Op.init 9, Op.createNewWidgetRepresentation, Op.setMRMLScene 7]
        (newModule Memory.zero)).map
      (fun w => (w.d.MRMLScene, w.d.WidgetRepresentation, w.d.WidgetRepresentations,
        w.mem.widgetScene 1)) = some (7, 0, [1], 0) := by
  decide

/-- C3, amended: in every state a newly constructed module reaches through its
member functions, after `setMRMLScene(s)` the module's scene is `s`, the logic
(when the module holds one) has scene `s`, and the primary widget
representation (when there is one) has scene `s`; the scene stored in every
other widget representation is what it was before the call, and the call
changes neither the logic pointer, the primary pointer nor the tracking list. -/
theorem setMRMLScene_propagates (debug : Bool) (h : Subclass) (mem : Memory) (ops : List Op)
    (w : World) (hr : run debug h ops (newModule mem) = some w) (s : Ptr) :
    (setMRMLScene s w).d.MRMLScene = s ∧
    (w.d.Logic ≠ 0 → (setMRMLScene s w).mem.logicScene w.d.Logic = s) ∧
    (w.d.WidgetRepresentation ≠ 0 →
      (setMRMLScene s w).mem.widgetScene w.d.WidgetRepresentation = s) ∧
    (∀ r, r ≠ w.d.WidgetRepresentation →
      (setMRMLScene s w).mem.widgetScene r = w.mem.widgetScene r) ∧
    (setMRMLScene s w).d.Logic = w.d.Logic ∧
    (setMRMLScene s w).d.WidgetRepresentation = w.d.WidgetRepresentation ∧
    (setMRMLScene s w).d.WidgetRepresentations = w.d.WidgetRepresentations := by
  have hinv := run_inv debug h ops (newModule mem) w (newModule_inv h mem) hr
  obtain ⟨fS, fL, _, fP, fl, _, _, _⟩ := setMRMLScene_frame s w
  have hs := setMRMLScene_sync h s w hinv.1
  have hp := setMRMLScene_primary s w hinv.2.1
  unfold LogicInSync at hs
  unfold PrimaryInSync at hp
  rw [fL, fS] at hs
  rw [fP, fS] at hp
  refine ⟨fS, fun hl => (hs hl).1, hp, ?_, fL, fP, fl⟩
  intro r hr
  simp only [setMRMLScene]
  split_ifs <;> simp_all [store]

/-- An initialized module with a primary widget representation (address 1) and
a second tracked one (address 2) is given scene 7: the logic and the primary
representation have scene 7, the second one keeps its scene. -/
theorem setMRMLScene_propagates_witness :
    (run true exampleModule
        [Op.init 9, Op.widgetRepresentation, Op.createNewWidgetRepresentation,
          Op.setMRMLScene 7] (newModule Memory.zero)).map
      (fun w => (w.d.MRMLScene, w.d.Logic, w.mem.logicScene 5, w.d.WidgetRepresentation,
        w.d.WidgetRepresentations, w.mem.widgetScene 1, w.mem.widgetScene 2)) =
      some (7, 5, 7, 1, [1, 2], 7, 0) ∧
    (setMRMLScene 7 (initializeModule exampleModule 9 (newModule Memory.zero))).d.MRMLScene
      = 7 :=
  ⟨rfl,
    (setMRMLScene_propagates true exampleModule Memory.zero [Op.init 9]
      (initializeModule exampleModule 9 (newModule Memory.zero)) rfl 7).1⟩

/-! ## Creating a widget representation -/

/-- C4, as stated, fails: in a debug build, a newly constructed module that has
a logic and declares no widget representation does not return from
`createNewWidgetRepresentation()`; the assertion stops the program before
`createWidgetRepresentation()` is called. -/
theorem createNewWidgetRepresentation_aborts :
    noWidgetModule.createWidgetRepresentation 0 = 0 ∧
    (createNewWidgetRepresentation true noWidgetModule (newModule Memory.zero)).isNone = true := by
  decide

/-- C4, amended: when the consistency assertion passes (in a build without
assertions, or when the module holds a logic, or when `createLogic()` returns
null in the assertion), `createNewWidgetRepresentation()` returns what
`createWidgetRepresentation()` returned.  If that is null it writes exactly one
warning and leaves the tracking list and the primary widget representation as
they were; otherwise it writes nothing, returns the new non-null
representation, which has the module's scene and is appended to the tracking
list, and leaves the primary widget representation as it was. -/
theorem createNewWidgetRepresentation_outcome (debug : Bool) (h : Subclass) (w : World)
    (hpass : debug = false ∨ w.d.Logic ≠ 0 ∨ h.createLogic w.createLogicCalls = 0) :
    ∃ w2, createNewWidgetRepresentation debug h w =
        some (w2, h.createWidgetRepresentation w.createWidgetRepresentationCalls) ∧
      w2.createWidgetRepresentationCalls = w.createWidgetRepresentationCalls + 1 ∧
      w2.d.WidgetRepresentation = w.d.WidgetRepresentation ∧
      (h.createWidgetRepresentation w.createWidgetRepresentationCalls = 0 →
        w2.debugOutput = w.debugOutput ++
          [["Warning, the module ", w.d.Name, "has no widget representation"]] ∧
        w2.d.WidgetRepresentations = w.d.WidgetRepresentations) ∧
      (h.createWidgetRepresentation w.createWidgetRepresentationCalls ≠ 0 →
        w2.debugOutput = w.debugOutput ∧
        w2.d.WidgetRepresentations = w.d.WidgetRepresentations ++
          [h.createWidgetRepresentation w.createWidgetRepresentationCalls] ∧
        w2.mem.widgetScene (h.createWidgetRepresentation w.createWidgetRepresentationCalls) =
          w.d.MRMLScene) := by
  obtain ⟨w2, r, hc⟩ := createNewWidgetRepresentation_returns debug h w hpass
  obtain ⟨w1, ⟨w0, hcc, hmid, _⟩, hr, hcalls, _, _, _, _, _, hP, _, _, h0, hne⟩ :=
    createNewWidgetRepresentation_some debug h w w2 r hc
  obtain ⟨pS, pA, pP, pl, pN, pws, pwc, pout, plog, psync, pcl⟩ :=
    prepared_frame debug h w w0 w1 hcc hmid
  rw [pwc] at hr hcalls
  subst hr
  refine ⟨w2, hc, hcalls, by rw [hP, pP], ?_, ?_⟩
  · intro hz
    obtain ⟨hl, _, ho⟩ := h0 hz
    rw [ho, hl, pout, pl, pN]
    exact ⟨rfl, rfl⟩
  · intro hnz
    obtain ⟨hl, hws, _, _, ho⟩ := hne hnz
    rw [ho, hl, hws, pout, pl, pS]
    exact ⟨rfl, rfl, by simp [store]⟩

/-- In a build without assertions the module without widget representation
gets null and one warning; the initialized example module, in a debug build,
gets the representation at address 1 and no warning. -/
theorem createNewWidgetRepresentation_outcome_witness :
    (createNewWidgetRepresentation false noWidgetModule (newModule Memory.zero)).map
      (fun res => (res.2, res.1.debugOutput, res.1.d.WidgetRepresentations,
        res.1.d.WidgetRepresentation)) =
      some (0, [["Warning, the module ", "NA", "has no widget representation"]], [], 0) ∧
    (createNewWidgetRepresentation true exampleModule
        (initializeModule exampleModule 9 (newModule Memory.zero))).map
      (fun res => (res.2, res.1.debugOutput, res.1.d.WidgetRepresentations)) =
      some (1, [], [1]) ∧
    ∃ w2, createNewWidgetRepresentation true exampleModule
        (initializeModule exampleModule 9 (newModule Memory.zero)) =
        some (w2, exampleModule.createWidgetRepresentation
          (initializeModule exampleModule 9
            (newModule Memory.zero)).createWidgetRepresentationCalls) :=
  ⟨by decide, by decide,
    (createNewWidgetRepresentation_outcome true exampleModule
      (initializeModule exampleModule 9 (newModule Memory.zero))
      (Or.inr (Or.inl (by decide)))).imp (fun _ hw => hw.1)⟩

/-! ## The lazy accessor `widgetRepresentation()` -/

/-- C5, as stated, fails: in a debug build, a newly constructed module whose
`createWidgetRepresentation()` returns a non-null object does not get a
representation from its first `widgetRepresentation()` call; the assertion
stops the program, because `logic()` creates the logic only then. -/
theorem widgetRepresentation_aborts :
    exampleModule.createWidgetRepresentation 0 ≠ 0 ∧
    (widgetRepresentation true exampleModule (newModule Memory.zero)).isNone = true := by
  decide

/-- C5, amended: for a module without primary widget representation whose
`createWidgetRepresentation()` returns a non-null object, and when the
consistency assertion passes (in a build without assertions, or when the
module holds a logic, or when `createLogic()` returns null in the assertion),
`widgetRepresentation()` creates a representation with one call of
`createWidgetRepresentation()`, makes it the primary one and tracks it; after
any further member-function calls with no `representationDeleted` of it,
`widgetRepresentation()` returns that same object and leaves the whole module
as it is, the call count and the tracking list included. -/
theorem widgetRepresentation_lazy (debug : Bool) (h : Subclass) (w : World)
    (hp : w.d.WidgetRepresentation = 0)
    (hnn : h.createWidgetRepresentation w.createWidgetRepresentationCalls ≠ 0)
    (hpass : debug = false ∨ w.d.Logic ≠ 0 ∨ h.createLogic w.createLogicCalls = 0) :
    ∃ w1, widgetRepresentation debug h w =
        some (w1, h.createWidgetRepresentation w.createWidgetRepresentationCalls) ∧
      w1.d.WidgetRepresentation =
        h.createWidgetRepresentation w.createWidgetRepresentationCalls ∧
      w1.d.WidgetRepresentations = w.d.WidgetRepresentations ++
        [h.createWidgetRepresentation w.createWidgetRepresentationCalls] ∧
      w1.createWidgetRepresentationCalls = w.createWidgetRepresentationCalls + 1 ∧
      ∀ ops w2,
        (∀ op, op ∈ ops → op ≠ Op.representationDeleted
          (h.createWidgetRepresentation w.createWidgetRepresentationCalls)) →
        run debug h ops w1 = some w2 →
        widgetRepresentation debug h w2 =
          some (w2, h.createWidgetRepresentation w.createWidgetRepresentationCalls) := by
  obtain ⟨w0, hc, hcalls, hl⟩ := createNewWidgetRepresentation_tracks debug h w hnn hpass
  refine ⟨{ w0 with d := { w0.d with
      WidgetRepresentation := h.createWidgetRepresentation w.createWidgetRepresentationCalls } },
    ?_, rfl, hl, hcalls, ?_⟩
  · simp [widgetRepresentation, hp, hc]
  · intro ops w2 hops hrun
    have hprim := run_primary_stable debug h _ hnn ops _ w2 rfl hops hrun
    have hne2 : w2.d.WidgetRepresentation ≠ 0 := by
      rw [hprim]
      exact hnn
    rw [widgetRepresentation_of_primary debug h w2 hne2, hprim]

/-- The initialized example module, in a debug build: the first call creates
the representation at address 1; after a scene change, a second
representation and the deletion of that second one, the accessor still returns
address 1 and `createWidgetRepresentation()` has been called twice, as
before. -/
theorem widgetRepresentation_lazy_witness :
    (run true exampleModule
        [Op.init 9, Op.widgetRepresentation, Op.setMRMLScene 7,
          Op.createNewWidgetRepresentation, Op.representationDeleted 2, Op.widgetRepresentation]
        (newModule Memory.zero)).map
      (fun w => (w.d.WidgetRepresentation, w.d.WidgetRepresentations,
        w.createWidgetRepresentationCalls)) = some (1, [1], 2) ∧
    ∃ w1, widgetRepresentation true exampleModule
        (initializeModule exampleModule 9 (newModule Memory.zero)) =
        some (w1, exampleModule.createWidgetRepresentation
          (initializeModule exampleModule 9
            (newModule Memory.zero)).createWidgetRepresentationCalls) :=
  ⟨by decide,
    (widgetRepresentation_lazy true exampleModule
      (initializeModule exampleModule 9 (newModule Memory.zero)) (by decide) (by decide)
      (Or.inr (Or.inl (by decide)))).imp (fun _ hw => hw.1)⟩

/-! ## The consistency assertion -/

/-- A module that `initialize()` left with a logic passes the assertion in
every later state: the logic it holds is the value `logic()` returns, and
`createNewWidgetRepresentation()` returns with the same logic held. -/
theorem consistencyCheck_of_initialized (debug : Bool) (h : Subclass) (a : Ptr) (w0 : World)
    (ops : List Op) (w : World) (hr : run debug h ops (initializeModule h a w0) = some w)
    (hl : (initializeModule h a w0).d.Logic ≠ 0) :
    w.d.Logic = (logic h w).2 ∧
    (consistencyCheck true h w).isSome = true ∧
    ∃ w2 r, createNewWidgetRepresentation debug h w = some (w2, r) ∧
      w2.d.Logic = w.d.Logic := by
  have hlw : w.d.Logic ≠ 0 := by
    rw [(run_logic_stable debug h ops _ w hl hr).1]
    exact hl
  refine ⟨?_, (consistencyCheck_passes_iff true h w).mpr (Or.inr (Or.inl hlw)), ?_⟩
  · rw [logic_of_ne h w hlw]
  · obtain ⟨w2, r, hc⟩ :=
      createNewWidgetRepresentation_returns debug h w (Or.inr (Or.inl hlw))
    obtain ⟨w1, ⟨w00, hcc, hmid, _⟩, _, _, _, _, hL, _⟩ :=
      createNewWidgetRepresentation_some debug h w w2 r hc
    obtain ⟨_, _, _, _, _, _, _, _, plog, _⟩ := prepared_frame debug h w w00 w1 hcc hmid
    exact ⟨w2, r, hc, by rw [hL, (plog hlw).1]⟩

/-- C8: the code breaks the claim on a module whose `createLogic()` returns
null when `initialize()` calls `logic()` and a logic at its next call.  After
`initialize()` the module holds no logic, yet `logic()` then returns the logic
at address 5: the assertion `currentLogic == this->logic()` is false, a debug
build stops in `createNewWidgetRepresentation()`, and a build without
assertions returns the representation at address 1 with a logic created during
the call. -/
theorem consistency_assertion_fails :
    (initializeModule lateLogicModule 9 (newModule Memory.zero)).d.Logic = 0 ∧
    (logic lateLogicModule (initializeModule lateLogicModule 9 (newModule Memory.zero))).2 = 5 ∧
    (consistencyCheck true lateLogicModule
      (initializeModule lateLogicModule 9 (newModule Memory.zero))).isNone = true ∧
    (createNewWidgetRepresentation true lateLogicModule
      (initializeModule lateLogicModule 9 (newModule Memory.zero))).isNone = true ∧
    (createNewWidgetRepresentation false lateLogicModule
      (initializeModule lateLogicModule 9 (newModule Memory.zero))).map
        (fun res => (res.2, res.1.d.Logic, res.1.createLogicCalls)) = some (1, 5, 2) := by
  decide

/-! ## The scripted module widget -/

theorem setPythonSource_callables (files : ScriptFiles) (p f : String) (fns : List String)
    (hfile : files p = some fns) (hdef : f ∈ fns) (hf : f ∈ ["setup", "enter", "exit"])
    (w : qSlicerScriptedLoadableModuleWidget) : f ∈ (setPythonSource files p w).callables := by
  simp only [setPythonSource, hfile, Option.getD_some, List.mem_filter, decide_eq_true_eq]
  exact ⟨hdef, hf⟩

theorem property_invokeCallable_self (f : String) (w : qSlicerScriptedLoadableModuleWidget)
    (hf : f ∈ w.callables) :
    property (invokeCallable f w) (f ++ "_called_within_Python") = true := by
  simp [property, invokeCallable, hf, List.lookup]

theorem property_invokeCallable_other (f key : String)
    (w : qSlicerScriptedLoadableModuleWidget) (hk : key ≠ f ++ "_called_within_Python") :
    property (invokeCallable f w) key = property w key := by
  unfold invokeCallable
  split_ifs
  · have hb : (key == f ++ "_called_within_Python") = false := by simpa using hk
    simp [property, List.lookup, hb]
  · rfl

/-- C6: a newly constructed scripted widget reports an empty script source, and
after `setPythonSource(p)` the accessor `pythonSource()` returns exactly `p`,
for every widget and every path, that of an existing script file included. -/
theorem pythonSource_setPythonSource (files : ScriptFiles) (p : String)
    (w : qSlicerScriptedLoadableModuleWidget) :
    pythonSource qSlicerScriptedLoadableModuleWidget.new = "" ∧
    pythonSource (setPythonSource files p w) = p :=
  ⟨rfl, rfl⟩

/-- C7: on a newly constructed scripted widget whose script source has been set
to a script that defines `enter`, `exit` and `setup`, each of the flags
`enter_called_within_Python`, `exit_called_within_Python` and
`setup_called_within_Python` is false before the corresponding call and true
after it. -/
theorem lifecycle_flags (files : ScriptFiles) (p : String) (fns : List String)
    (hfile : files p = some fns) (henter : "enter" ∈ fns) (hexit : "exit" ∈ fns)
    (hsetup : "setup" ∈ fns) :
    property (setPythonSource files p qSlicerScriptedLoadableModuleWidget.new)
      "enter_called_within_Python" = false ∧
    property (enter (setPythonSource files p qSlicerScriptedLoadableModuleWidget.new))
      "enter_called_within_Python" = true ∧
    property (enter (setPythonSource files p qSlicerScriptedLoadableModuleWidget.new))
      "exit_called_within_Python" = false ∧
    property (exit (enter (setPythonSource files p qSlicerScriptedLoadableModuleWidget.new)))
      "exit_called_within_Python" = true ∧
    property (setPythonSource files p qSlicerScriptedLoadableModuleWidget.new)
      "setup_called_within_Python" = false ∧
    property (setup (setPythonSource files p qSlicerScriptedLoadableModuleWidget.new))
      "setup_called_within_Python" = true := by
  have hnone : ∀ key, property
      (setPythonSource files p qSlicerScriptedLoadableModuleWidget.new) key = false := by
    intro key
    rfl
  have hE := setPythonSource_callables files p "enter" fns hfile henter (by decide)
    qSlicerScriptedLoadableModuleWidget.new
  have hX := setPythonSource_callables files p "exit" fns hfile hexit (by decide)
    qSlicerScriptedLoadableModuleWidget.new
  have hS := setPythonSource_callables files p "setup" fns hfile hsetup (by decide)
    qSlicerScriptedLoadableModuleWidget.new
  refine ⟨hnone _, ?_, ?_, ?_, hnone _, ?_⟩
  · exact property_invokeCallable_self "enter" _ hE
  · unfold enter
    rw [property_invokeCallable_other "enter" _ _ (by decide)]
    exact hnone _
  · have hX2 : "exit" ∈
        (enter (setPythonSource files p qSlicerScriptedLoadableModuleWidget.new)).callables := by
      unfold enter invokeCallable
      rw [if_pos hE]
      exact hX
    exact property_invokeCallable_self "exit" _ hX2
  · exact property_invokeCallable_self "setup" _ hS

/-- The widget script of the test defines the three lifecycle functions; the
flags go from false to true as the test checks. -/
theorem lifecycle_flags_witness :
    property (setPythonSource testScripts "qSlicerScriptedLoadableModuleTestWidget.py"
        qSlicerScriptedLoadableModuleWidget.new) "enter_called_within_Python" = false ∧
    property (enter (setPythonSource testScripts "qSlicerScriptedLoadableModuleTestWidget.py"
        qSlicerScriptedLoadableModuleWidget.new)) "enter_called_within_Python" = true ∧
    property (enter (setPythonSource testScripts "qSlicerScriptedLoadableModuleTestWidget.py"
        qSlicerScriptedLoadableModuleWidget.new)) "exit_called_within_Python" = false ∧
    property (exit (enter (setPythonSource testScripts
        "qSlicerScriptedLoadableModuleTestWidget.py"
        qSlicerScriptedLoadableModuleWidget.new))) "exit_called_within_Python" = true ∧
    property (setPythonSource testScripts "qSlicerScriptedLoadableModuleTestWidget.py"
        qSlicerScriptedLoadableModuleWidget.new) "setup_called_within_Python" = false ∧
    property (setup (setPythonSource testScripts "qSlicerScriptedLoadableModuleTestWidget.py"
        qSlicerScriptedLoadableModuleWidget.new)) "setup_called_within_Python" = true :=
  lifecycle_flags testScripts "qSlicerScriptedLoadableModuleTestWidget.py"
    ["setup", "enter", "exit"] (by decide) (by decide) (by decide) (by decide)

end Slicer
